import Mathlib

/-
Shallow embedding of the VkBot dispatch-and-state core
(src/vk_bot/__init__.py, handlers.py, types.py, util.py,
src/vk_bot/state/machine.py, context.py, manager.py, storage.py).

Python dicts are modelled as association lists with dict semantics
(first occurrence wins on lookup, insert overwrites in place).
Callback side effects (handler bodies, FSM enter/exit hooks) are outside
the modelled state; the modelled effect of FSM.transition is the update
of the scratch current-state pointer, which is all the claims refer to.
-/

namespace VkBot

/-- Python value, as far as middleware return values are concerned. -/
inductive PyValue
  | none
  | bool (b : Bool)
  | int (n : Int)
  | str (s : String)
deriving DecidableEq

/-- Python truthiness test (`bool(v)` is False). -/
def PyValue.falsy : PyValue → Bool
  | .none => true
  | .bool b => !b
  | .int n => n == 0
  | .str s => s.isEmpty

/-- The test `result is False` used by VKBot._process_update: it holds only
for the boolean literal False, not for other false-y values. -/
def PyValue.isLiteralFalse : PyValue → Bool
  | .bool false => true
  | _ => false

/- Association-list dictionaries (Python dict semantics). -/

def dictGet {K V : Type} [BEq K] (d : List (K × V)) (k : K) : Option V :=
  (d.find? (fun p => p.1 == k)).map (fun p => p.2)

def dictInsert {K V : Type} [BEq K] (d : List (K × V)) (k : K) (v : V) :
    List (K × V) :=
  match d with
  | [] => [(k, v)]
  | (k', v') :: rest =>
    if k' == k then (k, v) :: rest else (k', v') :: dictInsert rest k v

def dictRemove {K V : Type} [BEq K] (d : List (K × V)) (k : K) : List (K × V) :=
  d.filter (fun p => !(p.1 == k))

/-- Python dict.update: insert the new bindings left to right. -/
def dictUpdateList {K V : Type} [BEq K] (d : List (K × V)) (kw : List (K × V)) :
    List (K × V) :=
  kw.foldl (fun acc p => dictInsert acc p.1 p.2) d

/- types.py -/

/-- types.Chat (the fields read by the dispatch core). -/
structure Chat where
  id : Int
  type : String
deriving DecidableEq

/-- types.Chat.from_peer_id. -/
def chatFromPeerId (peer_id : Int) : Chat :=
  if peer_id > 2000000000 then { id := peer_id, type := "group" }
  else { id := peer_id, type := "private" }

/-- types.Message (the fields read by the dispatch core).  Attachments are
represented by their type strings, which is all content_type reads. -/
structure Message where
  peer_id : Int
  from_id : Int
  text : String
  attachments : List String
  action : Option String
deriving DecidableEq

/-- types.Message.chat (derived from peer_id, not stored). -/
def Message.chat (m : Message) : Chat :=
  chatFromPeerId m.peer_id

/-- types.Message.content_type. -/
def Message.content_type (m : Message) : String :=
  if m.text ≠ "" then "text"
  else
    match m.attachments with
    | a :: _ => a
    | [] =>
      match m.action with
      | some k => "action_" ++ k
      | Option.none => "unknown"

/-- types.CallbackQuery (the fields read by the dispatch core). -/
structure CallbackQuery where
  from_id : Int
  data : Option String
deriving DecidableEq

/-- types.Update.  The lazily parsed payloads are carried directly; the
accessors below reproduce the type-tag gating of the Python properties. -/
structure Update where
  type : String
  msg : Option Message
  cbq : Option CallbackQuery

/-- types.Update.message: only message_new updates expose a message. -/
def updateMessage (u : Update) : Option Message :=
  if u.type == "message_new" then u.msg else none

/-- types.Update.callback_query: only message_event updates expose one. -/
def updateCallbackQuery (u : Update) : Option CallbackQuery :=
  if u.type == "message_event" then u.cbq else none

/- util.py -/

/-- Python text.split(" ", 1) on a character list: the part before the
first space and, when a space exists, everything after it. -/
def splitOnceChars : List Char → List Char × Option (List Char)
  | [] => ([], none)
  | c :: rest =>
    if c == ' ' then ([], some rest)
    else
      match splitOnceChars rest with
      | (w, r) => (c :: w, r)

/-- Python str.lower (ASCII case folding, as the command tokens use). -/
def strToLower (s : String) : String :=
  String.mk (s.data.map Char.toLower)

/-- util.extract_command: None for empty text or text not starting with
the slash prefix; otherwise the lower-cased token before the first space
and the remainder after it. -/
def extractCommand (text : String) : Option String × Option String :=
  match text.data with
  | [] => (none, none)
  | c :: rest =>
    if !(c == '/') then (none, none)
    else
      match splitOnceChars rest with
      | (w, args) => (some (strToLower (String.mk w)), args.map String.mk)

/- handlers.py -/

/-- The `state=` filter of a handler: Python allows a single state (a string
or None) or a list of such values. -/
inductive StateFilter
  | single (s : Option String)
  | list (l : List (Option String))

/-- handlers.MessageHandler.  The compiled regular expression and the custom
predicate are modelled by their Boolean search/test functions. -/
structure MessageHandler where
  commands : Option (List String)
  regexp : Option (String → Bool)
  func : Option (Message → Bool)
  content_types : List String
  chat_types : Option (List String)
  state : Option StateFilter

/-- handlers.MessageHandler.__init__: commands are lower-cased at
registration and an empty list is stored as None (`if commands` is false on
an empty list); content_types defaults to a singleton text list. -/
def makeMessageHandler (commands : Option (List String))
    (regexp : Option (String → Bool)) (func : Option (Message → Bool))
    (content_types : Option (List String)) (chat_types : Option (List String))
    (state : Option StateFilter) : MessageHandler :=
  { commands :=
      match commands with
      | some cs => if cs.isEmpty then none else some (cs.map strToLower)
      | none => none
    regexp := regexp
    func := func
    content_types :=
      match content_types with
      | some l => if l.isEmpty then ["text"] else l
      | none => ["text"]
    chat_types := chat_types
    state := state }

/-- The state-filter clause of MessageHandler.check (Python equality between
an Optional current state and the declared state or list members). -/
def stateOk (sf : Option StateFilter) (cur : Option String) : Bool :=
  match sf with
  | none => true
  | some (.single s) => s == cur
  | some (.list l) => l.contains cur

/-- The chat-type clause: rejects only when the declared list is truthy and
the derived chat type is not a member. -/
def chatTypeOk (ct : Option (List String)) (m : Message) : Bool :=
  match ct with
  | none => true
  | some l => l.isEmpty || l.contains (Message.chat m).type

/-- The content-type clause (the stored list is always non-None). -/
def contentTypeOk (cts : List String) (m : Message) : Bool :=
  cts.contains (Message.content_type m)

/-- The custom-predicate clause. -/
def funcOk (f : Option (Message → Bool)) (m : Message) : Bool :=
  match f with
  | none => true
  | some p => p m

/-- The command clause: only active when the stored command list is truthy;
requires non-empty text, a truthy extracted command, and membership. -/
def commandsOk (cmds : Option (List String)) (m : Message) : Bool :=
  match cmds with
  | none => true
  | some cs =>
    if cs.isEmpty then true
    else if m.text == "" then false
    else
      match extractCommand m.text with
      | (some c, _) => if c == "" then false else cs.contains c
      | (none, _) => false

/-- The pattern clause: requires non-empty text and a regexp match. -/
def regexpOk (r : Option (String → Bool)) (m : Message) : Bool :=
  match r with
  | none => true
  | some p => if m.text == "" then false else p m.text

/-- handlers.MessageHandler.check: short-circuit conjunction of the clauses
in source order, guarded by the presence of a message payload. -/
def MessageHandler.check (h : MessageHandler) (u : Update)
    (current_state : Option String) : Bool :=
  match updateMessage u with
  | none => false
  | some m =>
    stateOk h.state current_state && chatTypeOk h.chat_types m &&
      contentTypeOk h.content_types m && funcOk h.func m &&
      commandsOk h.commands m && regexpOk h.regexp m

/-- handlers.CallbackQueryHandler. -/
structure CallbackQueryHandler where
  func : Option (CallbackQuery → Bool)
  data : Option (String → Bool)
  state : Option StateFilter

/-- The data clause of CallbackQueryHandler.check: requires a truthy
callback data string matching the pattern. -/
def cbDataOk (pat : Option (String → Bool)) (cb : CallbackQuery) : Bool :=
  match pat with
  | none => true
  | some p =>
    match cb.data with
    | some d => if d == "" then false else p d
    | none => false

/-- The custom-predicate clause of CallbackQueryHandler.check. -/
def cbFuncOk (f : Option (CallbackQuery → Bool)) (cb : CallbackQuery) : Bool :=
  match f with
  | none => true
  | some p => p cb

/-- handlers.CallbackQueryHandler.check. -/
def CallbackQueryHandler.check (h : CallbackQueryHandler) (u : Update)
    (current_state : Option String) : Bool :=
  match updateCallbackQuery u with
  | none => false
  | some cb => stateOk h.state current_state && cbFuncOk h.func cb && cbDataOk h.data cb

/-- handlers.MiddlewareHandler.  The callback is modelled by the value it
returns for a given update. -/
structure MiddlewareHandler where
  update_types : Option (List String)
  result : Update → PyValue

/-- handlers.MiddlewareHandler.check: rejects only when the scope list is
truthy and the update type is not a member. -/
def MiddlewareHandler.check (mw : MiddlewareHandler) (u : Update) : Bool :=
  match mw.update_types with
  | none => true
  | some ts => ts.isEmpty || ts.contains u.type

/- VKBot dispatch (__init__.py _process_update) -/

/-- Which handler was invoked by a dispatch, as an index into the message or
callback-query registration list. -/
inductive Dispatched
  | message (i : Nat)
  | callback (i : Nat)
deriving DecidableEq

/-- The observable outcome of _process_update: which middlewares were
invoked (by registration index) and which handler, if any, was invoked. -/
structure DispatchResult where
  middlewaresRun : List Nat
  invoked : Option Dispatched
deriving DecidableEq

/-- The registered handler lists of a VKBot. -/
structure Bot where
  message_handlers : List MessageHandler
  callback_query_handlers : List CallbackQueryHandler
  middleware_handlers : List MiddlewareHandler

/-- The middleware loop of _process_update: run each in-scope middleware in
order; a callback returning the literal False aborts the whole dispatch.
Returns the indices of the middlewares that were invoked and the abort
flag. -/
def runMiddlewares (mws : List MiddlewareHandler) (u : Update) :
    List Nat × Bool :=
  match mws with
  | [] => ([], false)
  | mw :: rest =>
    if mw.check u then
      if (mw.result u).isLiteralFalse then ([0], true)
      else
        match runMiddlewares rest u with
        | (l, ab) => (0 :: l.map (fun n => n + 1), ab)
    else
      match runMiddlewares rest u with
      | (l, ab) => (l.map (fun n => n + 1), ab)

/-- The first-match loop over a handler list (`for ... if check: ...; break`),
returning the index of the invoked handler. -/
def firstMatchIdx {α : Type} (p : α → Bool) : List α → Option Nat
  | [] => none
  | a :: l => if p a then some 0 else (firstMatchIdx p l).map (fun n => n + 1)

/-- VKBot._process_update.  `getState` stands for
state_manager.get_state, the only storage access dispatch performs. -/
def processUpdate (bot : Bot) (getState : Int → Option String) (u : Update) :
    DispatchResult :=
  match runMiddlewares bot.middleware_handlers u with
  | (runs, true) => { middlewaresRun := runs, invoked := none }
  | (runs, false) =>
    match updateMessage u with
    | some m =>
      { middlewaresRun := runs
        invoked :=
          (firstMatchIdx (fun h => MessageHandler.check h u (getState m.from_id))
            bot.message_handlers).map Dispatched.message }
    | none =>
      match updateCallbackQuery u with
      | some cb =>
        { middlewaresRun := runs
          invoked :=
            (firstMatchIdx
              (fun h => CallbackQueryHandler.check h u (getState cb.from_id))
              bot.callback_query_handlers).map Dispatched.callback }
      | none => { middlewaresRun := runs, invoked := none }

/- state/machine.py -/

/-- machine.StateInfo (name and group tag; the enter/exit hooks and the
inert timeout/retry metadata carry no modelled state). -/
structure StateInfo where
  name : String
  group : Option String
deriving DecidableEq

/-- machine.Transition, over a guard-context type Ctx. -/
structure Transition (Ctx : Type) where
  from_state : String
  to_state : String
  condition : Option (Ctx → Bool)
  priority : Int

/-- machine.FiniteStateMachine: declared states (the dict keyed by name),
declared transitions, and the scratch current-state pointer. -/
structure FSM (Ctx : Type) where
  name : String
  states : List StateInfo
  transitions : List (Transition Ctx)
  initial_state : Option String
  current_state : Option String

/-- Stable insertion of a transition into a list sorted by descending
priority (an earlier element wins ties), mirroring Python's stable
`sorted(transitions, key=lambda x: -x.priority)`. -/
def insertDescPriority {Ctx : Type} (t : Transition Ctx) :
    List (Transition Ctx) → List (Transition Ctx)
  | [] => [t]
  | t' :: rest =>
    if t.priority ≥ t'.priority then t :: t' :: rest
    else t' :: insertDescPriority t rest

/-- Stable sort by descending priority. -/
def sortDescPriority {Ctx : Type} : List (Transition Ctx) → List (Transition Ctx)
  | [] => []
  | t :: rest => insertDescPriority t (sortDescPriority rest)

/-- The result a matching rule yields: the guard's value if present, else
true. -/
def evalCond {Ctx : Type} (t : Transition Ctx) (ctx : Ctx) : Bool :=
  match t.condition with
  | some c => c ctx
  | none => true

/-- Dict-key membership test `from_state in self.states`; the Python caller
may pass None, which is never a key. -/
def stateDeclared {Ctx : Type} (fsm : FSM Ctx) (s : Option String) : Bool :=
  match s with
  | some f => fsm.states.any (fun si => si.name == f)
  | none => false

/-- The scan loop of can_transition: for each rule, three branch tests
(exact from and exact to; wildcard from and exact to; exact from and
wildcard to), each returning the guard result on a hit.  A Python
comparison of a rule field against an Optional query is false for None. -/
def scanTrans {Ctx : Type} (fromS : Option String) (toS : String) (ctx : Ctx) :
    List (Transition Ctx) → Bool
  | [] => false
  | t :: rest =>
    if some t.from_state == fromS && t.to_state == toS then evalCond t ctx
    else if t.from_state == "*" && t.to_state == toS then evalCond t ctx
    else if some t.from_state == fromS && t.to_state == "*" then evalCond t ctx
    else scanTrans fromS toS ctx rest

/-- machine.FiniteStateMachine.can_transition. -/
def canTransition {Ctx : Type} (fsm : FSM Ctx) (fromS : Option String)
    (toS : String) (ctx : Ctx) : Bool :=
  if !stateDeclared fsm fromS then false
  else if fsm.transitions.isEmpty then true
  else scanTrans fromS toS ctx (sortDescPriority fsm.transitions)

/-- machine.FiniteStateMachine.transition: its modelled effect is the
unconditional update of the scratch pointer (hooks are external
callbacks). -/
def fsmTransition {Ctx : Type} (fsm : FSM Ctx) (fromS toS : Option String) :
    FSM Ctx :=
  { fsm with current_state := toS }

/-- Python truthiness of an optional string (None and "" are falsy). -/
def truthyStr : Option String → Bool
  | some s => !(s == "")
  | none => false

/-- machine.FiniteStateMachine.is_in_group: reads the shared scratch
current-state pointer. -/
def fsmIsInGroup {Ctx : Type} (fsm : FSM Ctx) (group : String) : Bool :=
  if !truthyStr fsm.current_state then false
  else
    match fsm.states.find? (fun si => some si.name == fsm.current_state) with
    | some si => si.group == some group
    | none => false

/- state/storage.py (MemoryStorage) and state/manager.py -/

/-- storage.MemoryStorage over data values of type V. -/
structure MemoryStorage (V : Type) where
  states : List (Int × String)
  data : List (Int × List (String × V))

/-- The empty (fresh) storage. -/
def emptyStorage {V : Type} : MemoryStorage V :=
  { states := [], data := [] }

def MemoryStorage.get_state {V : Type} (st : MemoryStorage V) (u : Int) :
    Option String :=
  dictGet st.states u

def MemoryStorage.set_state {V : Type} (st : MemoryStorage V) (u : Int)
    (s : String) : MemoryStorage V :=
  { st with states := dictInsert st.states u s }

/-- get_data returns a copy with default {}; in the pure model the copy is
the value itself. -/
def MemoryStorage.get_data {V : Type} (st : MemoryStorage V) (u : Int) :
    List (String × V) :=
  (dictGet st.data u).getD []

def MemoryStorage.set_data {V : Type} (st : MemoryStorage V) (u : Int)
    (d : List (String × V)) : MemoryStorage V :=
  { st with data := dictInsert st.data u d }

def MemoryStorage.delete {V : Type} (st : MemoryStorage V) (u : Int) :
    MemoryStorage V :=
  { states := dictRemove st.states u, data := dictRemove st.data u }

/-- manager.StateManager.update_data: read the data copy, dict-merge the
keyword arguments into it, and write it back wholesale. -/
def managerUpdateData {V : Type} (st : MemoryStorage V) (u : Int)
    (kw : List (String × V)) : MemoryStorage V :=
  st.set_data u (dictUpdateList (st.get_data u) kw)

/- state/context.py -/

/-- The state shared by a bot's StateContexts: the storage behind the
StateManager and the registry FSM the contexts bind (guard context is
modelled as Unit; the guards the relevant claims use are constant). -/
structure GlobalState (V : Type) where
  store : MemoryStorage V
  fsm : FSM Unit

/-- StateContext.__init__: constructing a context for a user copies that
user's stored state into the shared FSM's scratch pointer. -/
def contextInit {V : Type} (g : GlobalState V) (u : Int) : GlobalState V :=
  { g with fsm := { g.fsm with current_state := g.store.get_state u } }

/-- StateContext.current. -/
def contextCurrent {V : Type} (g : GlobalState V) (u : Int) : Option String :=
  g.store.get_state u

/-- The ValueError raised by StateContext.set on a rejected transition. -/
inductive SetFail
  | transitionRejected (fromS : Option String) (toS : String)
deriving DecidableEq

/-- StateContext.set: read the current state from storage, gate on
can_transition, then run FSM.transition and persist the new state. -/
def contextSet {V : Type} (g : GlobalState V) (u : Int) (s : String) :
    Option SetFail × GlobalState V :=
  let current := g.store.get_state u
  if !canTransition g.fsm current s () then
    (some (SetFail.transitionRejected current s), g)
  else
    (none,
      { store := (g.store.set_state u s)
        fsm := fsmTransition g.fsm current (some s) })

/-- StateContext.finish: reset the storage entry and clear the scratch
pointer (via a transition to None when the pointer was truthy, then an
explicit clear; the modelled outcome is the same either way). -/
def contextFinish {V : Type} (g : GlobalState V) (u : Int) : GlobalState V :=
  { store := g.store.delete u
    fsm := { g.fsm with current_state := none } }

/-- StateContext.is_in_group: a falsy stored current state answers false;
otherwise the answer is delegated to the shared FSM, which reads its
scratch pointer. -/
def contextIsInGroup {V : Type} (g : GlobalState V) (u : Int)
    (group : String) : Bool :=
  if !truthyStr (g.store.get_state u) then false
  else fsmIsInGroup g.fsm group

/-- Overwrite the shared FSM's scratch pointer (the state a different
user's operations may leave behind). -/
def setScratch {V : Type} (g : GlobalState V) (cs : Option String) :
    GlobalState V :=
  { g with fsm := { g.fsm with current_state := cs } }

/- VKBot.polling (__init__.py) with apihelper.process_updates -/

/-- The two exception classes the polling loop distinguishes:
exception.VKAPIError versus any other exception. -/
inductive PollErr
  | api
  | other
deriving DecidableEq

/-- apihelper.LongPollServer (the fields the loop reads). -/
structure LPSession where
  server : String
  key : String
  ts : String
deriving DecidableEq

/-- The fetch response: an optional new cursor under the ts key and an
optional list of raw updates under the updates key. -/
structure RawBatch (ρ : Type) where
  ts : Option String
  updates : Option (List ρ)

/-- apihelper.process_updates: parse each raw update in arrival order,
dropping the unparseable ones. -/
def processUpdatesModel {ρ υ : Type} (parse : ρ → Option υ) (raw : RawBatch ρ) :
    List υ :=
  match raw.updates with
  | some l => l.filterMap parse
  | none => []

/-- Observable actions of one polling iteration, in order. -/
inductive PollAction (υ : Type)
  | dispatch (u : υ)
  | advanceTs (ts : String)
  | sleep
deriving DecidableEq

/-- Outcome of one polling iteration: the cached session afterwards, the
updates dispatched to completion, the action trace, whether the loop slept
to retry, and the exception re-raised to the caller, if any. -/
structure IterResult (υ : Type) where
  lp : Option LPSession
  dispatched : List υ
  trace : List (PollAction υ)
  slept : Bool
  raised : Option PollErr

/-- The sequential dispatch of a parsed batch; an update whose handler
raises stops the batch and surfaces the exception. -/
def runDispatch {υ : Type} (dispatchErr : υ → Option PollErr) :
    List υ → List υ × Option PollErr
  | [] => ([], none)
  | u :: rest =>
    match dispatchErr u with
    | some e => ([], some e)
    | none =>
      match runDispatch dispatchErr rest with
      | (l, r) => (u :: l, r)

/-- The except-branches of the polling loop: a VKAPIError discards the
cached session, any other exception keeps it; non-stop mode sleeps and
retries, otherwise the exception is re-raised. -/
def errorExitIter {υ : Type} (nonStop : Bool) (e : PollErr)
    (lpAt : Option LPSession) (done : List υ) : IterResult υ :=
  let lp' := if e = PollErr.api then none else lpAt
  if nonStop then
    { lp := lp', dispatched := done
      trace := done.map PollAction.dispatch ++ [PollAction.sleep]
      slept := true, raised := none }
  else
    { lp := lp', dispatched := done
      trace := done.map PollAction.dispatch
      slept := false, raised := some e }

/-- One iteration of VKBot.polling.  `acquire` is the result
get_long_poll_server would produce this iteration, `fetch` the result of
get_long_poll_updates on a given session, and `dispatchErr` the exception,
if any, each dispatched update's processing raises. -/
def pollIteration {ρ υ : Type} (nonStop : Bool) (lp : Option LPSession)
    (acquire : Except PollErr LPSession)
    (fetch : LPSession → Except PollErr (RawBatch ρ))
    (parse : ρ → Option υ) (dispatchErr : υ → Option PollErr) : IterResult υ :=
  match (match lp with | some s => Except.ok s | none => acquire) with
  | .error e => errorExitIter nonStop e lp []
  | .ok s =>
    match fetch s with
    | .error e => errorExitIter nonStop e (some s) []
    | .ok raw =>
      match runDispatch dispatchErr (processUpdatesModel parse raw) with
      | (done, some e) => errorExitIter nonStop e (some s) done
      | (done, none) =>
        match raw.ts with
        | some t =>
          { lp := some { s with ts := t }, dispatched := done
            trace := done.map PollAction.dispatch ++ [PollAction.advanceTs t]
            slept := false, raised := none }
        | none =>
          { lp := some s, dispatched := done
            trace := done.map PollAction.dispatch
            slept := false, raised := none }

/- Helper lemmas -/

theorem firstMatchIdx_eq_none_iff {α : Type} (p : α → Bool) (l : List α) :
    firstMatchIdx p l = none ↔ ∀ i a, l.get? i = some a → p a = false := by
  induction l with
  | nil => simp [firstMatchIdx]
  | cons a l ih =>
    cases hp : p a with
    | true =>
      simp only [firstMatchIdx, hp, if_true]
      constructor
      · intro h; exact absurd h (by simp)
      · intro h
        have h0 := h 0 a List.get?_cons_zero
        rw [hp] at h0
        exact absurd h0 (by simp)
    | false =>
      simp only [firstMatchIdx, hp]
      rw [if_neg (by simp), Option.map_eq_none', ih]
      constructor
      · intro h i b hb
        cases i with
        | zero =>
          rw [List.get?_cons_zero] at hb
          cases hb
          exact hp
        | succ i =>
          rw [List.get?_cons_succ] at hb
          exact h i b hb
      · intro h i b hb
        refine h (i + 1) b ?_
        rw [List.get?_cons_succ]
        exact hb

theorem firstMatchIdx_eq_some_iff {α : Type} (p : α → Bool) (l : List α)
    (n : Nat) :
    firstMatchIdx p l = some n ↔
      (∃ a, l.get? n = some a ∧ p a = true) ∧
        ∀ j, j < n → ∀ a, l.get? j = some a → p a = false := by
  induction l generalizing n with
  | nil => simp [firstMatchIdx]
  | cons a l ih =>
    cases hp : p a with
    | true =>
      simp only [firstMatchIdx, hp, if_true]
      constructor
      · intro h
        injection h with h
        subst h
        exact ⟨⟨a, List.get?_cons_zero, hp⟩,
          fun j hj => absurd hj (Nat.not_lt_zero j)⟩
      · rintro ⟨⟨b, hb, hpb⟩, hmin⟩
        cases n with
        | zero => rfl
        | succ n =>
          have h0 := hmin 0 (Nat.succ_pos n) a List.get?_cons_zero
          rw [hp] at h0
          exact absurd h0 (by simp)
    | false =>
      simp only [firstMatchIdx, hp]
      rw [if_neg (by simp)]
      constructor
      · intro h
        rcases Option.map_eq_some'.mp h with ⟨m, hm, hn⟩
        subst hn
        rcases (ih m).mp hm with ⟨⟨b, hb, hpb⟩, hmin⟩
        refine ⟨⟨b, ?_, hpb⟩, ?_⟩
        · rw [List.get?_cons_succ]; exact hb
        · intro j hj c hc
          cases j with
          | zero =>
            rw [List.get?_cons_zero] at hc
            cases hc
            exact hp
          | succ j =>
            rw [List.get?_cons_succ] at hc
            exact hmin j (Nat.lt_of_succ_lt_succ hj) c hc
      · rintro ⟨⟨b, hb, hpb⟩, hmin⟩
        cases n with
        | zero =>
          rw [List.get?_cons_zero] at hb
          cases hb
          rw [hp] at hpb
          exact absurd hpb (by simp)
        | succ n =>
          rw [List.get?_cons_succ] at hb
          have hrec : firstMatchIdx p l = some n :=
            (ih n).mpr ⟨⟨b, hb, hpb⟩,
              fun j hj c hc =>
                hmin (j + 1) (Nat.succ_lt_succ hj) c
                  (by rw [List.get?_cons_succ]; exact hc)⟩
          rw [hrec]
          rfl

theorem updateMessage_eq_none_of_cbq {u : Update} {cb : CallbackQuery}
    (h : updateCallbackQuery u = some cb) : updateMessage u = none := by
  unfold updateCallbackQuery at h
  cases ht : u.type == "message_event" with
  | false => rw [ht] at h; exact absurd h (by simp)
  | true =>
    have htype : u.type = "message_event" := by
      exact eq_of_beq ht
    unfold updateMessage
    rw [htype]
    rfl

/-- Claim C1: for every list of registered message handlers (or
callback-query handlers) and every inbound event, dispatch invokes exactly
the first handler, in registration order, whose check returns true given
the event and the user's current stored state; all later handlers are
skipped, and if no handler's check returns true, zero handlers are invoked
and the event is dropped without error. -/
theorem claim1_first_match_dispatch
    (msgHs : List MessageHandler) (cbHs : List CallbackQueryHandler)
    (st : Int → Option String) (u : Update) :
    (∀ m, updateMessage u = some m →
      ((∀ n,
          (processUpdate ⟨msgHs, cbHs, []⟩ st u).invoked =
              some (Dispatched.message n) ↔
            (∃ h, msgHs.get? n = some h ∧
                MessageHandler.check h u (st m.from_id) = true) ∧
              ∀ j, j < n → ∀ h, msgHs.get? j = some h →
                MessageHandler.check h u (st m.from_id) = false) ∧
        ((processUpdate ⟨msgHs, cbHs, []⟩ st u).invoked = none ↔
          ∀ i h, msgHs.get? i = some h →
            MessageHandler.check h u (st m.from_id) = false))) ∧
    (∀ cb, updateCallbackQuery u = some cb →
      ((∀ n,
          (processUpdate ⟨msgHs, cbHs, []⟩ st u).invoked =
              some (Dispatched.callback n) ↔
            (∃ h, cbHs.get? n = some h ∧
                CallbackQueryHandler.check h u (st cb.from_id) = true) ∧
              ∀ j, j < n → ∀ h, cbHs.get? j = some h →
                CallbackQueryHandler.check h u (st cb.from_id) = false) ∧
        ((processUpdate ⟨msgHs, cbHs, []⟩ st u).invoked = none ↔
          ∀ i h, cbHs.get? i = some h →
            CallbackQueryHandler.check h u (st cb.from_id) = false))) ∧
    (updateMessage u = none → updateCallbackQuery u = none →
      (processUpdate ⟨msgHs, cbHs, []⟩ st u).invoked = none) := by
  refine ⟨?_, ?_, ?_⟩
  · intro m hm
    have hred :
        (processUpdate ⟨msgHs, cbHs, []⟩ st u).invoked =
          (firstMatchIdx (fun h => MessageHandler.check h u (st m.from_id))
            msgHs).map Dispatched.message := by
      simp [processUpdate, runMiddlewares, hm]
    constructor
    · intro n
      rw [hred]
      constructor
      · intro h
        rcases Option.map_eq_some'.mp h with ⟨k, hk, hkn⟩
        have hkn2 : k = n := by
          injection hkn
        subst hkn2
        exact (firstMatchIdx_eq_some_iff _ _ _).mp hk
      · intro h
        rw [(firstMatchIdx_eq_some_iff
          (fun h => MessageHandler.check h u (st m.from_id)) msgHs n).mpr h]
        rfl
    · rw [hred, Option.map_eq_none']
      exact firstMatchIdx_eq_none_iff _ _
  · intro cb hcb
    have hm := updateMessage_eq_none_of_cbq hcb
    have hred :
        (processUpdate ⟨msgHs, cbHs, []⟩ st u).invoked =
          (firstMatchIdx
            (fun h => CallbackQueryHandler.check h u (st cb.from_id))
            cbHs).map Dispatched.callback := by
      simp [processUpdate, runMiddlewares, hm, hcb]
    constructor
    · intro n
      rw [hred]
      constructor
      · intro h
        rcases Option.map_eq_some'.mp h with ⟨k, hk, hkn⟩
        have hkn2 : k = n := by
          injection hkn
        subst hkn2
        exact (firstMatchIdx_eq_some_iff _ _ _).mp hk
      · intro h
        rw [(firstMatchIdx_eq_some_iff
          (fun h => CallbackQueryHandler.check h u (st cb.from_id)) cbHs n).mpr h]
        rfl
    · rw [hred, Option.map_eq_none']
      exact firstMatchIdx_eq_none_iff _ _
  · intro hm hcb
    simp [processUpdate, runMiddlewares, hm, hcb]

/-- Witness for C1: a bot with two message handlers where only the second
(catch-all) matches the concrete message dispatches exactly handler 1. -/
theorem claim1_first_match_dispatch_witness :
    (processUpdate
      ⟨[makeMessageHandler (some ["go"]) none none none none none,
        makeMessageHandler none none none none none none], [], []⟩
      (fun _ => none)
      { type := "message_new"
        msg := some { peer_id := 5, from_id := 7, text := "hello"
                      attachments := [], action := none }
        cbq := none }).invoked = some (Dispatched.message 1) := by
  have h := claim1_first_match_dispatch
    [makeMessageHandler (some ["go"]) none none none none none,
     makeMessageHandler none none none none none none] [] (fun _ => none)
    { type := "message_new"
      msg := some { peer_id := 5, from_id := 7, text := "hello"
                    attachments := [], action := none }
      cbq := none }
  refine ((h.1 _ rfl).1 1).mpr ⟨⟨makeMessageHandler none none none none none none, rfl, by decide⟩, ?_⟩
  intro j hj hnd hget
  match j, hj with
  | 0, _ =>
    have hh : makeMessageHandler (some ["go"]) none none none none none = hnd := by
      injection hget
    rw [← hh]
    decide

theorem runMiddlewares_abort (mws : List MiddlewareHandler) (u : Update)
    (i : Nat) (mw : MiddlewareHandler) (hget : mws.get? i = some mw)
    (hchk : mw.check u = true) (hres : (mw.result u).isLiteralFalse = true)
    (hearly : ∀ j mw', j < i → mws.get? j = some mw' → mw'.check u = true →
      (mw'.result u).isLiteralFalse = false) :
    (runMiddlewares mws u).2 = true ∧
      ∀ j ∈ (runMiddlewares mws u).1, j ≤ i := by
  induction mws generalizing i with
  | nil => exact absurd hget (by simp)
  | cons m rest ih =>
    cases i with
    | zero =>
      rw [List.get?_cons_zero] at hget
      cases hget
      simp [runMiddlewares, hchk, hres]
    | succ i =>
      rw [List.get?_cons_succ] at hget
      have hearly2 : ∀ j mw', j < i → rest.get? j = some mw' →
          mw'.check u = true → (mw'.result u).isLiteralFalse = false :=
        fun j mw' hj hg hc =>
          hearly (j + 1) mw' (Nat.succ_lt_succ hj)
            (by rw [List.get?_cons_succ]; exact hg) hc
      obtain ⟨hab, hle⟩ := ih i hget hearly2
      cases hc : m.check u with
      | false =>
        rcases hrm : runMiddlewares rest u with ⟨l, ab⟩
        rw [hrm] at hab hle
        simp only [runMiddlewares, hc, hrm]
        rw [if_neg (by simp)]
        refine ⟨hab, ?_⟩
        intro j hj
        rcases List.mem_map.mp hj with ⟨k, hk, hkj⟩
        subst hkj
        exact Nat.succ_le_succ (hle k hk)
      | true =>
        have hf : (m.result u).isLiteralFalse = false :=
          hearly 0 m (Nat.succ_pos i) List.get?_cons_zero hc
        rcases hrm : runMiddlewares rest u with ⟨l, ab⟩
        rw [hrm] at hab hle
        simp only [runMiddlewares, hc, hf, hrm, if_true]
        rw [if_neg (by simp)]
        refine ⟨hab, ?_⟩
        intro j hj
        rcases List.mem_cons.mp hj with hj0 | hj1
        · subst hj0; exact Nat.zero_le _
        · rcases List.mem_map.mp hj1 with ⟨k, hk, hkj⟩
          subst hkj
          exact Nat.succ_le_succ (hle k hk)

/-- Counterexample to C2: a middleware returning None (a false-y value
that is not the literal False) does not abort processing; the handler is
still invoked. -/
theorem claim2_counterexample :
    PyValue.falsy PyValue.none = true ∧
    (processUpdate
      ⟨[makeMessageHandler none none none none none none], [],
        [{ update_types := none, result := fun _ => PyValue.none }]⟩
      (fun _ => none)
      { type := "message_new"
        msg := some { peer_id := 1, from_id := 1, text := "hi"
                      attachments := [], action := none }
        cbq := none }).invoked = some (Dispatched.message 0) := by
  decide

/-- Claim C2 (amended): for every registered middleware M whose scope
includes an event's type, if M's callback returns the boolean literal False
(the `is False` test of _process_update) and no earlier in-scope middleware
did, then no later middleware runs and no handler is invoked; other false-y
return values (None, 0, empty string) do not abort processing. -/
theorem claim2_middleware_false_aborts
    (msgHs : List MessageHandler) (cbHs : List CallbackQueryHandler)
    (mws : List MiddlewareHandler) (st : Int → Option String) (u : Update)
    (i : Nat) (mw : MiddlewareHandler) (hget : mws.get? i = some mw)
    (hchk : mw.check u = true) (hres : mw.result u = PyValue.bool false)
    (hearly : ∀ j mw', j < i → mws.get? j = some mw' → mw'.check u = true →
      (mw'.result u).isLiteralFalse = false) :
    (processUpdate ⟨msgHs, cbHs, mws⟩ st u).invoked = none ∧
      ∀ j ∈ (processUpdate ⟨msgHs, cbHs, mws⟩ st u).middlewaresRun, j ≤ i := by
  obtain ⟨hab, hle⟩ :=
    runMiddlewares_abort mws u i mw hget hchk (by rw [hres]; rfl) hearly
  rcases hrm : runMiddlewares mws u with ⟨runs, ab⟩
  rw [hrm] at hab hle
  simp only at hab
  subst hab
  simp only [processUpdate, hrm]
  exact ⟨trivial, hle⟩

/-- Witness for the amended C2: with an in-scope middleware returning True
at index 0 and one returning False at index 1, no handler is invoked and
no middleware after index 1 runs. -/
theorem claim2_middleware_false_aborts_witness :
    (processUpdate
      ⟨[makeMessageHandler none none none none none none], [],
        [{ update_types := none, result := fun _ => PyValue.bool true },
         { update_types := none, result := fun _ => PyValue.bool false },
         { update_types := none, result := fun _ => PyValue.bool true }]⟩
      (fun _ => none)
      { type := "message_new"
        msg := some { peer_id := 1, from_id := 1, text := "hi"
                      attachments := [], action := none }
        cbq := none }).invoked = none ∧
    ∀ j ∈ (processUpdate
      ⟨[makeMessageHandler none none none none none none], [],
        [{ update_types := none, result := fun _ => PyValue.bool true },
         { update_types := none, result := fun _ => PyValue.bool false },
         { update_types := none, result := fun _ => PyValue.bool true }]⟩
      (fun _ => none)
      { type := "message_new"
        msg := some { peer_id := 1, from_id := 1, text := "hi"
                      attachments := [], action := none }
        cbq := none }).middlewaresRun, j ≤ 1 := by
  refine claim2_middleware_false_aborts _ _ _ _ _ 1
    { update_types := none, result := fun _ => PyValue.bool false }
    rfl rfl rfl ?_
  intro j mw' hj hg hc
  match j, hj with
  | 0, _ =>
    have hh : ({ update_types := none, result := fun _ => PyValue.bool true } :
        MiddlewareHandler) = mw' := by
      injection hg
    rw [← hh]
    rfl

/-- The rule-matching condition the scan loop actually tests: one of the
three combinations exact/exact, wildcard-from/exact, exact/wildcard-to. -/
def matchesRule {Ctx : Type} (fromS : Option String) (toS : String)
    (t : Transition Ctx) : Bool :=
  (some t.from_state == fromS && t.to_state == toS) ||
  (t.from_state == "*" && t.to_state == toS) ||
  (some t.from_state == fromS && t.to_state == "*")

/-- The rule-matching condition claim C3 states, read off the spec's words:
(from == rule.from or rule.from == wildcard) and (to == rule.to or
rule.to == wildcard).  Unlike matchesRule it also matches a rule whose two
fields are both the wildcard. -/
def claimMatchesRule {Ctx : Type} (fromS : Option String) (toS : String)
    (t : Transition Ctx) : Bool :=
  (some t.from_state == fromS || t.from_state == "*") &&
  (t.to_state == toS || t.to_state == "*")

/-- can_transition as claim C3 words it: sort by descending priority, take
the first rule satisfying claimMatchesRule, return its guard result (true
if no guard); false when no rule matches; with the undeclared-from and
no-transitions special cases in front. -/
def canTransitionClaimSpec {Ctx : Type} (fsm : FSM Ctx)
    (fromS : Option String) (toS : String) (ctx : Ctx) : Bool :=
  if !stateDeclared fsm fromS then false
  else if fsm.transitions.isEmpty then true
  else
    match (sortDescPriority fsm.transitions).find? (claimMatchesRule fromS toS) with
    | some t => evalCond t ctx
    | none => false

/-- The amended first-match formulation: identical to the claim's wording
except that the matching condition is the one the code tests
(matchesRule), which never matches a rule with both fields wildcard. -/
def canTransitionAmendedSpec {Ctx : Type} (fsm : FSM Ctx)
    (fromS : Option String) (toS : String) (ctx : Ctx) : Bool :=
  if !stateDeclared fsm fromS then false
  else if fsm.transitions.isEmpty then true
  else
    match (sortDescPriority fsm.transitions).find? (matchesRule fromS toS) with
    | some t => evalCond t ctx
    | none => false

theorem scanTrans_eq_find {Ctx : Type} (fromS : Option String) (toS : String)
    (ctx : Ctx) (l : List (Transition Ctx)) :
    scanTrans fromS toS ctx l =
      match l.find? (matchesRule fromS toS) with
      | some t => evalCond t ctx
      | none => false := by
  induction l with
  | nil => rfl
  | cons t rest ih =>
    cases h1 : (some t.from_state == fromS && t.to_state == toS) with
    | true =>
      rw [List.find?_cons_of_pos _ (by simp [matchesRule, h1])]
      simp [scanTrans, h1]
    | false =>
      cases h2 : (t.from_state == "*" && t.to_state == toS) with
      | true =>
        rw [List.find?_cons_of_pos _ (by simp [matchesRule, h2])]
        simp [scanTrans, h1, h2]
      | false =>
        cases h3 : (some t.from_state == fromS && t.to_state == "*") with
        | true =>
          rw [List.find?_cons_of_pos _ (by simp [matchesRule, h3])]
          simp [scanTrans, h1, h2, h3]
        | false =>
          rw [List.find?_cons_of_neg _ (by simp [matchesRule, h1, h2, h3])]
          simp only [scanTrans, h1, h2, h3]
          rw [if_neg (by simp), if_neg (by simp), if_neg (by simp)]
          exact ih

theorem insertDescPriority_perm {Ctx : Type} (t : Transition Ctx)
    (l : List (Transition Ctx)) :
    List.Perm (insertDescPriority t l) (t :: l) := by
  induction l with
  | nil => exact List.Perm.refl _
  | cons t' rest ih =>
    by_cases h : t.priority ≥ t'.priority
    · rw [insertDescPriority, if_pos h]
    · rw [insertDescPriority, if_neg h]
      exact (ih.cons t').trans (List.Perm.swap t t' rest)

theorem sortDescPriority_perm {Ctx : Type} (l : List (Transition Ctx)) :
    List.Perm (sortDescPriority l) l := by
  induction l with
  | nil => exact List.Perm.refl _
  | cons t rest ih =>
    exact (insertDescPriority_perm t (sortDescPriority rest)).trans (ih.cons t)

theorem insertDescPriority_pairwise {Ctx : Type} (t : Transition Ctx)
    (l : List (Transition Ctx))
    (hl : List.Pairwise (fun a b => b.priority ≤ a.priority) l) :
    List.Pairwise (fun a b => b.priority ≤ a.priority)
      (insertDescPriority t l) := by
  induction l with
  | nil => simp [insertDescPriority]
  | cons t' rest ih =>
    rcases List.pairwise_cons.mp hl with ⟨hhead, hrest⟩
    by_cases h : t.priority ≥ t'.priority
    · rw [insertDescPriority, if_pos h]
      refine List.pairwise_cons.mpr ⟨?_, hl⟩
      intro x hx
      rcases List.mem_cons.mp hx with hx0 | hx1
      · subst hx0; exact h
      · exact le_trans (hhead x hx1) h
    · rw [insertDescPriority, if_neg h]
      refine List.pairwise_cons.mpr ⟨?_, ih hrest⟩
      intro x hx
      have hx2 := (insertDescPriority_perm t rest).mem_iff.mp hx
      rcases List.mem_cons.mp hx2 with hx0 | hx1
      · subst hx0; exact le_of_lt (lt_of_not_ge h)
      · exact hhead x hx1

theorem sortDescPriority_pairwise {Ctx : Type} (l : List (Transition Ctx)) :
    List.Pairwise (fun a b => b.priority ≤ a.priority) (sortDescPriority l) := by
  induction l with
  | nil => simp [sortDescPriority]
  | cons t rest ih => exact insertDescPriority_pairwise t _ ih

/-- Counterexample to C3: an FSM with declared states a and b and the
single declared rule (wildcard, wildcard) rejects a to b, although the
claim's reading of the matching condition permits any transition between
declared states. -/
theorem claim3_counterexample :
    canTransition
      { name := "default", states := [⟨"a", none⟩, ⟨"b", none⟩]
        transitions := [(⟨"*", "*", none, 0⟩ : Transition Unit)]
        initial_state := none, current_state := none }
      (some "a") "b" () = false ∧
    canTransitionClaimSpec
      { name := "default", states := [⟨"a", none⟩, ⟨"b", none⟩]
        transitions := [(⟨"*", "*", none, 0⟩ : Transition Unit)]
        initial_state := none, current_state := none }
      (some "a") "b" () = true := by
  decide

/-- Claim C3 (amended): can_transition returns false when from is not a
declared state; true when from is declared and no transitions exist;
otherwise the guard result (true without a guard) of the first rule, in
descending-priority order (stable on ties), matching exact-from/exact-to,
wildcard-from/exact-to, or exact-from/wildcard-to, and false when no rule
matches; a rule with both fields wildcard matches neither combination.
The sorted scan order is a permutation of the declared rules that is
sorted by descending priority. -/
theorem claim3_can_transition_first_match {Ctx : Type} (fsm : FSM Ctx)
    (fromS : Option String) (toS : String) (ctx : Ctx) :
    canTransition fsm fromS toS ctx = canTransitionAmendedSpec fsm fromS toS ctx ∧
    List.Perm (sortDescPriority fsm.transitions) fsm.transitions ∧
    List.Pairwise (fun a b => b.priority ≤ a.priority)
      (sortDescPriority fsm.transitions) := by
  refine ⟨?_, sortDescPriority_perm _, sortDescPriority_pairwise _⟩
  unfold canTransition canTransitionAmendedSpec
  rw [scanTrans_eq_find]

/-- Claim C4: if can_transition from the user's current stored state to s
returns false, StateContext.set(s) fails with a transition-rejected error
and leaves the stored state, the stored data map and the FSM unchanged; if
it returns true, set(s) runs FSM.transition and then persists s as the
user's state in the StateStore. -/
theorem claim4_context_set {V : Type} (g : GlobalState V) (u : Int)
    (s : String) :
    (canTransition g.fsm (g.store.get_state u) s () = false →
      (contextSet g u s).1 =
        some (SetFail.transitionRejected (g.store.get_state u) s) ∧
      (contextSet g u s).2 = g) ∧
    (canTransition g.fsm (g.store.get_state u) s () = true →
      (contextSet g u s).1 = none ∧
      (contextSet g u s).2.fsm =
        fsmTransition g.fsm (g.store.get_state u) (some s) ∧
      (contextSet g u s).2.store = g.store.set_state u s) := by
  constructor
  · intro h
    simp [contextSet, h]
  · intro h
    simp [contextSet, h]

/-- Witness for C4: a closed FSM with only an a-to-a rule rejects a-to-b
and leaves everything unchanged, while an open FSM accepts a-to-b, updates
the scratch pointer and persists the state. -/
theorem claim4_context_set_witness :
    ((contextSet
      ({ store := { states := [(1, "a")], data := [] }
         fsm := { name := "default"
                  states := [⟨"a", none⟩, ⟨"b", none⟩]
                  transitions := [(⟨"a", "a", none, 0⟩ : Transition Unit)]
                  initial_state := none, current_state := none } } :
        GlobalState Int) 1 "b").1 =
      some (SetFail.transitionRejected (some "a") "b") ∧
     (contextSet
      ({ store := { states := [(1, "a")], data := [] }
         fsm := { name := "default"
                  states := [⟨"a", none⟩, ⟨"b", none⟩]
                  transitions := [(⟨"a", "a", none, 0⟩ : Transition Unit)]
                  initial_state := none, current_state := none } } :
        GlobalState Int) 1 "b").2 =
      ({ store := { states := [(1, "a")], data := [] }
         fsm := { name := "default"
                  states := [⟨"a", none⟩, ⟨"b", none⟩]
                  transitions := [(⟨"a", "a", none, 0⟩ : Transition Unit)]
                  initial_state := none, current_state := none } } :
        GlobalState Int)) ∧
    ((contextSet
      ({ store := { states := [(1, "a")], data := [] }
         fsm := { name := "default"
                  states := [⟨"a", none⟩, ⟨"b", none⟩]
                  transitions := ([] : List (Transition Unit))
                  initial_state := none, current_state := none } } :
        GlobalState Int) 1 "b").1 = none ∧
     (contextSet
      ({ store := { states := [(1, "a")], data := [] }
         fsm := { name := "default"
                  states := [⟨"a", none⟩, ⟨"b", none⟩]
                  transitions := ([] : List (Transition Unit))
                  initial_state := none, current_state := none } } :
        GlobalState Int) 1 "b").2.store =
      ({ states := [(1, "a")], data := [] } : MemoryStorage Int).set_state 1 "b") := by
  refine ⟨?_, ?_⟩
  · exact (claim4_context_set _ 1 "b").1 (by decide)
  · have h := (claim4_context_set
      ({ store := { states := [(1, "a")], data := [] }
         fsm := { name := "default"
                  states := [⟨"a", none⟩, ⟨"b", none⟩]
                  transitions := ([] : List (Transition Unit))
                  initial_state := none, current_state := none } } :
        GlobalState Int) 1 "b").2 (by decide)
    exact ⟨h.1, h.2.2⟩

/-- can_transition never reads the scratch current-state pointer. -/
theorem canTransition_scratch_irrel {Ctx : Type} (fsm : FSM Ctx)
    (cs : Option String) (fromS : Option String) (toS : String) (ctx : Ctx) :
    canTransition { fsm with current_state := cs } fromS toS ctx =
      canTransition fsm fromS toS ctx := rfl

/-- Claim C10: for every user whose stored state is unset and every FSM,
including one with no declared transitions, StateContext.set always fails
with the transition-rejected error for every target state, because
can_transition treats the unset current state as an undeclared from-state;
a user's first state can never be assigned through StateContext.set. -/
theorem claim10_unset_state_never_settable {V : Type} (g : GlobalState V)
    (u : Int) (s : String) (h : g.store.get_state u = none) :
    canTransition g.fsm none s () = false ∧
    (contextSet g u s).1 = some (SetFail.transitionRejected none s) ∧
    (contextSet g u s).2 = g := by
  have hc : canTransition g.fsm (none : Option String) s () = false := rfl
  refine ⟨hc, ?_, ?_⟩ <;> simp [contextSet, h, hc]

/-- Witness for C10: on a fresh store, even with an open FSM (declared
states, no transitions), set is rejected and changes nothing. -/
theorem claim10_unset_state_never_settable_witness :
    (contextSet
      ({ store := emptyStorage
         fsm := { name := "default"
                  states := [⟨"a", none⟩, ⟨"b", none⟩]
                  transitions := ([] : List (Transition Unit))
                  initial_state := none, current_state := none } } :
        GlobalState Int) 3 "a").1 =
      some (SetFail.transitionRejected none "a") := by
  exact (claim10_unset_state_never_settable
    ({ store := emptyStorage
       fsm := { name := "default"
                states := [⟨"a", none⟩, ⟨"b", none⟩]
                transitions := ([] : List (Transition Unit))
                initial_state := none, current_state := none } } :
      GlobalState Int) 3 "a" rfl).2.1

/-- Counterexample to C5: constructing a StateContext for user 2 between
user 1's context construction and user 1's is_in_group query flips the
query's outcome, because is_in_group reads the shared FSM's scratch
current-state pointer. -/
theorem claim5_counterexample :
    contextIsInGroup
      (contextInit
        ({ store := { states := [(1, "a"), (2, "b")], data := [] }
           fsm := { name := "default"
                    states := [⟨"a", some "g1"⟩, ⟨"b", some "g2"⟩]
                    transitions := [], initial_state := none
                    current_state := none } } : GlobalState Int) 1)
      1 "g1" = true ∧
    contextIsInGroup
      (contextInit
        (contextInit
          ({ store := { states := [(1, "a"), (2, "b")], data := [] }
             fsm := { name := "default"
                      states := [⟨"a", some "g1"⟩, ⟨"b", some "g2"⟩]
                      transitions := [], initial_state := none
                      current_state := none } } : GlobalState Int) 1) 2)
      1 "g1" = false := by
  decide

/-- Claim C5 (amended): a user's current state string is held only in the
StateStore, and the outcomes of StateContext.current, set (error result
and resulting store) and finish (resulting store and cleared pointer) do
not depend on the scratch pointer value left behind by operations for a
different user; is_in_group, however, delegates to the shared FSM's
scratch pointer, so its outcome can depend on that value. -/
theorem claim5_scratch_independence {V : Type} (g : GlobalState V)
    (cs1 cs2 : Option String) (u : Int) (s : String) :
    contextCurrent (setScratch g cs1) u = contextCurrent (setScratch g cs2) u ∧
    (contextSet (setScratch g cs1) u s).1 =
      (contextSet (setScratch g cs2) u s).1 ∧
    (contextSet (setScratch g cs1) u s).2.store =
      (contextSet (setScratch g cs2) u s).2.store ∧
    (contextFinish (setScratch g cs1) u).store =
      (contextFinish (setScratch g cs2) u).store ∧
    (contextFinish (setScratch g cs1) u).fsm.current_state =
      (contextFinish (setScratch g cs2) u).fsm.current_state := by
  have hset : ∀ cs : Option String,
      (contextSet (setScratch g cs) u s).1 = (contextSet g u s).1 ∧
      (contextSet (setScratch g cs) u s).2.store = (contextSet g u s).2.store := by
    intro cs
    simp only [contextSet, setScratch]
    rw [canTransition_scratch_irrel]
    cases hc : canTransition g.fsm (g.store.get_state u) s () with
    | true => simp [hc]
    | false => simp [hc]
  exact ⟨rfl, (hset cs1).1.trans (hset cs2).1.symm,
    (hset cs1).2.trans (hset cs2).2.symm, rfl, rfl⟩

/-- Claim C6: on a fresh store, update_data merges key by key (existing
keys preserved, same keys overwritten) while set_data replaces the map
wholesale. -/
theorem claim6_update_merges_set_replaces (u : Int) :
    (managerUpdateData
      (managerUpdateData (emptyStorage : MemoryStorage Int) u [("a", 1)])
      u [("b", 2)]).get_data u = [("a", 1), ("b", 2)] ∧
    ((managerUpdateData
      (managerUpdateData (emptyStorage : MemoryStorage Int) u [("a", 1)])
      u [("b", 2)]).set_data u [("c", 3)]).get_data u = [("c", 3)] := by
  constructor <;>
    simp [managerUpdateData, MemoryStorage.get_data, MemoryStorage.set_data,
      emptyStorage, dictGet, dictInsert, dictUpdateList, List.find?]

/-- Counterexample to C7: for the text consisting of the bare slash, the
command token is the empty string; even when the empty string is a member
of the declared command set, the filter rejects (the code requires a
truthy token), so acceptance is not equivalent to membership of the token
in the declared set. -/
theorem claim7_counterexample :
    extractCommand "/" = (some "", none) ∧
    [""].contains "" = true ∧
    (makeMessageHandler (some [""]) none none none none none).commands =
      some [""] ∧
    commandsOk (some [""])
      { peer_id := 1, from_id := 1, text := "/", attachments := []
        action := none } = false ∧
    MessageHandler.check (makeMessageHandler (some [""]) none none none none none)
      { type := "message_new"
        msg := some { peer_id := 1, from_id := 1, text := "/"
                      attachments := [], action := none }
        cbq := none } none = false := by
  decide

/-- Claim C7 (amended): the command filter accepts iff extract_command
yields a non-empty token (the case-folded substring after the slash up to
the first space, which exists exactly when the text starts with the
slash) that is a member of the stored, registration-lower-cased command
set; extract_command("/help info") = ("help", "info"); and text not
starting with the slash yields (None, None). -/
theorem claim7_command_filter (cs : List String) (m : Message)
    (hcs : cs ≠ []) :
    (commandsOk (some cs) m = true ↔
      ∃ c, (extractCommand m.text).1 = some c ∧ c ≠ "" ∧
        cs.contains c = true) ∧
    extractCommand "/help info" = (some "help", some "info") ∧
    (∀ t : String, t.data.head? ≠ some '/' → extractCommand t = (none, none)) := by
  refine ⟨?_, by decide, ?_⟩
  · have hecs : cs.isEmpty = false := by
      cases cs with
      | nil => exact absurd rfl hcs
      | cons c rest => rfl
    cases htext : m.text == "" with
    | true =>
      have ht : m.text = "" := eq_of_beq htext
      rw [show extractCommand m.text = (none, none) by rw [ht]; rfl]
      simp [commandsOk, hecs, htext]
    | false =>
      rcases hext : extractCommand m.text with ⟨copt, args⟩
      cases copt with
      | none => simp [commandsOk, hecs, htext, hext]
      | some c =>
        cases hc0 : c == "" with
        | true =>
          have hc : c = "" := eq_of_beq hc0
          subst hc
          simp [commandsOk, hecs, htext, hext]
        | false =>
          have hc : ¬(c = "") := by
            intro hh
            rw [hh] at hc0
            exact absurd hc0 (by decide)
          simp [commandsOk, hecs, htext, hext, hc0]
          exact fun _ => hc
  · intro t ht
    cases hd : t.data with
    | nil => unfold extractCommand; rw [hd]
    | cons c rest =>
      have hne : (c == '/') = false := by
        cases hcc : c == '/' with
        | true =>
          have : c = '/' := eq_of_beq hcc
          subst this
          rw [hd] at ht
          exact absurd rfl ht
        | false => rfl
      unfold extractCommand
      rw [hd]
      simp [hne]

/-- Witness for the amended C7: the declared command start, registered as
lower case, matches the upper-case text token, with arguments returned by
extract_command. -/
theorem claim7_command_filter_witness :
    commandsOk (some ["start"])
      { peer_id := 1, from_id := 1, text := "/START now", attachments := []
        action := none } = true ∧
    extractCommand "/help info" = (some "help", some "info") ∧
    extractCommand "hello" = (none, none) := by
  have h := claim7_command_filter ["start"]
    { peer_id := 1, from_id := 1, text := "/START now", attachments := []
      action := none } (by decide)
  exact ⟨h.1.mpr ⟨"start", by decide, by decide, by decide⟩, h.2.1,
    h.2.2 "hello" (by decide)⟩

/-- Counterexample to C8: a private-typed chat whose id differs from the
sender id is accepted by a handler with chat-type filter private, so
acceptance is not equivalent to the chat id equalling the sender id. -/
theorem claim8_counterexample :
    MessageHandler.check
      (makeMessageHandler none none none none (some ["private"]) none)
      { type := "message_new"
        msg := some { peer_id := 123, from_id := 456, text := "hi"
                      attachments := [], action := none }
        cbq := none } none = true ∧
    (Message.chat { peer_id := 123, from_id := 456, text := "hi"
                    attachments := [], action := none }).id ≠
      ({ peer_id := 123, from_id := 456, text := "hi", attachments := []
         action := none } : Message).from_id := by
  decide

/-- Claim C8 (amended): the chat-type filters partition message events by
the numeric range of the chat id, which equals the peer id: the private
filter accepts iff the chat id is at most the group-id threshold
2000000000, the group filter accepts iff it exceeds the threshold, and
exactly one of the two accepts any message. -/
theorem claim8_chat_type_partition (m : Message) :
    chatTypeOk (some ["private"]) m = decide (m.peer_id ≤ 2000000000) ∧
    chatTypeOk (some ["group"]) m = decide (2000000000 < m.peer_id) ∧
    (Message.chat m).id = m.peer_id ∧
    chatTypeOk (some ["private"]) m = !chatTypeOk (some ["group"]) m := by
  by_cases h : m.peer_id > 2000000000
  · have hc : Message.chat m = { id := m.peer_id, type := "group" } := by
      unfold Message.chat chatFromPeerId
      rw [if_pos h]
    refine ⟨?_, ?_, ?_, ?_⟩ <;>
      simp [chatTypeOk, hc, h, not_le.mpr h]
  · have hc : Message.chat m = { id := m.peer_id, type := "private" } := by
      unfold Message.chat chatFromPeerId
      rw [if_neg h]
    refine ⟨?_, ?_, ?_, ?_⟩ <;>
      simp [chatTypeOk, hc, h, not_lt.mp h]

theorem runDispatch_ok {υ : Type} (dispatchErr : υ → Option PollErr)
    (l : List υ) (done : List υ)
    (h : runDispatch dispatchErr l = (done, none)) : done = l := by
  induction l generalizing done with
  | nil =>
    rw [runDispatch] at h
    cases h
    rfl
  | cons u rest ih =>
    rw [runDispatch] at h
    cases he : dispatchErr u with
    | some e =>
      rw [he] at h
      cases h
    | none =>
      rw [he] at h
      rcases hr : runDispatch dispatchErr rest with ⟨l2, r2⟩
      rw [hr] at h
      cases h
      rw [ih l2 hr]

/-- Claim C9: in every poll-loop iteration the cursor is advanced to the
fetch response's new value only after every event of the fetched batch has
been dispatched, and on error in non-stop mode the loop sleeps a fixed
interval and retries, discarding the cached long-poll session exactly when
the error is an API (authentication/session) error and keeping it for any
other transient error. -/
theorem claim9_poll_iteration {ρ υ : Type} (nonStop : Bool)
    (lp : Option LPSession) (acquire : Except PollErr LPSession)
    (fetch : LPSession → Except PollErr (RawBatch ρ))
    (parse : ρ → Option υ) (dispatchErr : υ → Option PollErr) :
    (∀ s raw done t,
      (lp = some s ∨ (lp = none ∧ acquire = Except.ok s)) →
      fetch s = Except.ok raw →
      runDispatch dispatchErr (processUpdatesModel parse raw) = (done, none) →
      raw.ts = some t →
      pollIteration nonStop lp acquire fetch parse dispatchErr =
        { lp := some { s with ts := t }, dispatched := done
          trace := done.map PollAction.dispatch ++ [PollAction.advanceTs t]
          slept := false, raised := none } ∧
      done = processUpdatesModel parse raw) ∧
    (∀ s raw done,
      (lp = some s ∨ (lp = none ∧ acquire = Except.ok s)) →
      fetch s = Except.ok raw →
      runDispatch dispatchErr (processUpdatesModel parse raw) = (done, none) →
      raw.ts = none →
      pollIteration nonStop lp acquire fetch parse dispatchErr =
        { lp := some s, dispatched := done
          trace := done.map PollAction.dispatch
          slept := false, raised := none }) ∧
    (∀ e,
      lp = none → acquire = Except.error e →
      pollIteration nonStop lp acquire fetch parse dispatchErr =
        errorExitIter nonStop e none []) ∧
    (∀ s e,
      (lp = some s ∨ (lp = none ∧ acquire = Except.ok s)) →
      fetch s = Except.error e →
      pollIteration nonStop lp acquire fetch parse dispatchErr =
        errorExitIter nonStop e (some s) []) ∧
    (∀ s raw done e,
      (lp = some s ∨ (lp = none ∧ acquire = Except.ok s)) →
      fetch s = Except.ok raw →
      runDispatch dispatchErr (processUpdatesModel parse raw) = (done, some e) →
      pollIteration nonStop lp acquire fetch parse dispatchErr =
        errorExitIter nonStop e (some s) done) ∧
    (∀ e lpAt (done : List υ),
      (errorExitIter nonStop e lpAt done).lp =
        (if e = PollErr.api then none else lpAt) ∧
      (nonStop = true →
        (errorExitIter nonStop e lpAt done).slept = true ∧
        (errorExitIter nonStop e lpAt done).raised = none) ∧
      (nonStop = false →
        (errorExitIter nonStop e lpAt done).slept = false ∧
        (errorExitIter nonStop e lpAt done).raised = some e) ∧
      ∀ t, PollAction.advanceTs t ∉ (errorExitIter nonStop e lpAt done).trace) := by
  have hres : ∀ s, (lp = some s ∨ (lp = none ∧ acquire = Except.ok s)) →
      (match lp with | some s2 => Except.ok s2 | none => acquire) =
        Except.ok s := by
    intro s hs
    rcases hs with hs | ⟨hn, ha⟩
    · rw [hs]
    · rw [hn, ha]
  refine ⟨?_, ?_, ?_, ?_, ?_, ?_⟩
  · intro s raw done t hs hf hd ht
    refine ⟨?_, runDispatch_ok dispatchErr _ done hd⟩
    unfold pollIteration
    rw [hres s hs]
    simp only
    rw [hf]
    simp only
    rw [hd, ht]
  · intro s raw done hs hf hd ht
    unfold pollIteration
    rw [hres s hs]
    simp only
    rw [hf]
    simp only
    rw [hd, ht]
  · intro e hn ha
    unfold pollIteration
    rw [hn, ha]
  · intro s e hs hf
    unfold pollIteration
    rw [hres s hs]
    simp only
    rw [hf]
  · intro s raw done e hs hf hd
    unfold pollIteration
    rw [hres s hs]
    simp only
    rw [hf]
    simp only
    rw [hd]
  · intro e lpAt done
    refine ⟨?_, ?_, ?_, ?_⟩
    · unfold errorExitIter
      cases nonStop with
      | true => rfl
      | false => rfl
    · intro hn
      subst hn
      exact ⟨rfl, rfl⟩
    · intro hn
      subst hn
      exact ⟨rfl, rfl⟩
    · intro t hmem
      have htr : (errorExitIter nonStop e lpAt done).trace =
          done.map PollAction.dispatch ++
            (if nonStop then [PollAction.sleep] else []) := by
        cases nonStop with
        | true => rfl
        | false => simp [errorExitIter]
      rw [htr] at hmem
      rcases List.mem_append.mp hmem with hdisp | hif
      · rcases List.mem_map.mp hdisp with ⟨x, _, hx⟩
        exact PollAction.noConfusion hx
      · cases nonStop with
        | true =>
          rw [if_pos rfl] at hif
          have h2 := List.mem_singleton.mp hif
          exact PollAction.noConfusion h2
        | false =>
          rw [if_neg (by simp)] at hif
          exact absurd hif (List.not_mem_nil _)

/-- Witness for C9: a concrete successful iteration dispatches the whole
batch before advancing the cursor, a concrete API error discards the
session, and a concrete non-API error keeps it. -/
theorem claim9_poll_iteration_witness :
    pollIteration true (some ⟨"srv", "k", "1"⟩) (Except.ok ⟨"srv", "k", "1"⟩)
      (fun _ => Except.ok ({ ts := some "2", updates := some [10, 20] } : RawBatch Nat))
      (fun r => (some r : Option Nat)) (fun _ => none) =
      { lp := some ⟨"srv", "k", "2"⟩, dispatched := [10, 20]
        trace := [PollAction.dispatch 10, PollAction.dispatch 20,
                  PollAction.advanceTs "2"]
        slept := false, raised := none } ∧
    (pollIteration true (some ⟨"srv", "k", "1"⟩) (Except.ok ⟨"srv", "k", "1"⟩)
      (fun _ => (Except.error PollErr.api : Except PollErr (RawBatch Nat)))
      (fun r => (some r : Option Nat)) (fun _ => none)).lp = none ∧
    (pollIteration true (some ⟨"srv", "k", "1"⟩) (Except.ok ⟨"srv", "k", "1"⟩)
      (fun _ => (Except.error PollErr.other : Except PollErr (RawBatch Nat)))
      (fun r => (some r : Option Nat)) (fun _ => none)).lp =
      some ⟨"srv", "k", "1"⟩ := by
  refine ⟨?_, ?_, ?_⟩
  · have h := (claim9_poll_iteration true (some ⟨"srv", "k", "1"⟩)
      (Except.ok ⟨"srv", "k", "1"⟩)
      (fun _ => Except.ok ({ ts := some "2", updates := some [10, 20] } : RawBatch Nat))
      (fun r => (some r : Option Nat)) (fun _ => none)).1
      ⟨"srv", "k", "1"⟩ { ts := some "2", updates := some [10, 20] } [10, 20] "2"
      (Or.inl rfl) rfl rfl rfl
    exact h.1
  · have h := (claim9_poll_iteration true (some ⟨"srv", "k", "1"⟩)
      (Except.ok ⟨"srv", "k", "1"⟩)
      (fun _ => (Except.error PollErr.api : Except PollErr (RawBatch Nat)))
      (fun r => (some r : Option Nat)) (fun _ => none)).2.2.2.1
      ⟨"srv", "k", "1"⟩ PollErr.api (Or.inl rfl) rfl
    rw [h]
    rfl
  · have h := (claim9_poll_iteration true (some ⟨"srv", "k", "1"⟩)
      (Except.ok ⟨"srv", "k", "1"⟩)
      (fun _ => (Except.error PollErr.other : Except PollErr (RawBatch Nat)))
      (fun r => (some r : Option Nat)) (fun _ => none)).2.2.2.1
      ⟨"srv", "k", "1"⟩ PollErr.other (Or.inl rfl) rfl
    rw [h]
    rfl

end VkBot
